import Mathlib

/-!
Verification of the Comsol_Optimization scripts of the repository
`Hard_Nanos_HardHaq`: a shallow embedding of the self-contained logic of the
directory `src/Comsol_Optimization`, namely:

* the parameter mapper `normalize` / `denormalize`
  (`Hardhaq_Optimization_Easy.py` lines 52-56, identical text in
  `Comsol_Optimize copy.py` lines 52-56);
* the weighted scoring function `objective`
  (`Hardhaq_Optimization_Easy.py` lines 98-113, identical text and tables in
  `Comsol_Optimize copy.py` lines 85-100; the variant in `Comsol_Optimize.py`
  lines 65-80 uses different target/weight tables and its final line reads
  `ret+urn score`, a syntax error);
* the scoring / penalty / logging portion of `run_trial` in
  `Hardhaq_Optimization_Easy.py` (lines 115-188) and in
  `Comsol_Optimize copy.py` (lines 102-165);
* the feasibility corrector `enforce_inscribed_constraint` of
  `Comsol_Optimize.py` (lines 85-145).

Python floats are idealized as exact rationals (ℚ) where no square root
occurs, and as real numbers (ℝ) for the corrector, which calls `math.sqrt`.
External effects (the COMSOL engine, the CSV writer) are abstracted: whether
`model.solve()` raised is a boolean input, the `try_eval` results are
`Option ℚ` inputs, and the rows appended to the CSV are returned as a list.
A Python exception escaping a function is modelled by an `Option`-valued
result of `none`.

All repository definitions live in the `Hardhaq` namespace (with inner
namespaces `Easy`, `Copy`, `CO` for the three script variants).
-/

namespace Hardhaq

/-- Embeds `targets["depth_eV"]` of `Hardhaq_Optimization_Easy.py` (line 25);
`Comsol_Optimize copy.py` line 25 has the same value. -/
def targets_depth_eV : ℚ := 5

/-- Embeds `targets["offset_mm"]` (line 26): `0.001`. -/
def targets_offset_mm : ℚ := 1/1000

/-- Embeds `targets["P_est_mW"]` (line 27): `1000.0`. -/
def targets_P_est_mW : ℚ := 1000

/-- Embeds `weights["depth_eV"]` (line 32): `1.0`. -/
def weights_depth_eV : ℚ := 1

/-- Embeds `weights["offset_mm"]` (line 33): `10.0`. -/
def weights_offset_mm : ℚ := 10

/-- Embeds `weights["P_est_mW"]` (line 34): `0.8`. -/
def weights_P_est_mW : ℚ := 4/5

/-- Embeds `normalize(x, bounds)` of `Hardhaq_Optimization_Easy.py` lines 52-53
(identical in `Comsol_Optimize copy.py`):
`[(xi - low) / (high - low) for xi, (low, high) in zip(x, bounds)]`. -/
def normalize (x : List ℚ) (bounds : List (ℚ × ℚ)) : List ℚ :=
  (x.zip bounds).map fun xb => (xb.1 - xb.2.1) / (xb.2.2 - xb.2.1)

/-- Embeds `denormalize(y, bounds)` of `Hardhaq_Optimization_Easy.py` lines 55-56
(identical in `Comsol_Optimize copy.py`):
`[low + yi * (high - low) for yi, (low, high) in zip(y, bounds)]`. -/
def denormalize (y : List ℚ) (bounds : List (ℚ × ℚ)) : List ℚ :=
  (y.zip bounds).map fun yb => (yb.2.1 + yb.1 * (yb.2.2 - yb.2.1))

/-- Embeds `objective(depth_eV, offset_mm, P_est_mW)` of
`Hardhaq_Optimization_Easy.py` lines 98-113 (identical text and tables in
`Comsol_Optimize copy.py` lines 85-100).  The Python literal `1e-9` is the
rational `1/1000000000`; the `print` calls are effect-free and elided. -/
def objective (depth_eV offset_mm P_est_mW : ℚ) : ℚ :=
  let depth_score := depth_eV / (targets_depth_eV + 1/1000000000)
  let offset_score := (targets_offset_mm + 1/1000000000) / (offset_mm + 1/1000000000)
  let power_score := (targets_P_est_mW + 1/1000000000) / (P_est_mW + 1/1000000000)
  weights_depth_eV * depth_score + weights_offset_mm * offset_score
    + weights_P_est_mW * power_score

section MapperLemmas

lemma normalize_cons (a : ℚ) (x : List ℚ) (b : ℚ × ℚ) (bs : List (ℚ × ℚ)) :
    normalize (a :: x) (b :: bs) = ((a - b.1) / (b.2 - b.1)) :: normalize x bs := rfl

lemma denormalize_cons (a : ℚ) (y : List ℚ) (b : ℚ × ℚ) (bs : List (ℚ × ℚ)) :
    denormalize (a :: y) (b :: bs) = (b.1 + a * (b.2 - b.1)) :: denormalize y bs := rfl

lemma denormalize_normalize (x : List ℚ) (bounds : List (ℚ × ℚ))
    (hb : ∀ b ∈ bounds, b.1 < b.2) (hlen : x.length = bounds.length) :
    denormalize (normalize x bounds) bounds = x := by
  induction x generalizing bounds with
  | nil =>
    cases bounds with
    | nil => rfl
    | cons b bs => simp at hlen
  | cons a t ih =>
    cases bounds with
    | nil => simp at hlen
    | cons b bs =>
      have hb1 : b.1 < b.2 := hb b (List.mem_cons_self b bs)
      have hne : b.2 - b.1 ≠ 0 := sub_ne_zero.mpr (ne_of_gt hb1)
      rw [normalize_cons, denormalize_cons]
      have hhead : b.1 + (a - b.1) / (b.2 - b.1) * (b.2 - b.1) = a := by
        rw [div_mul_cancel₀ _ hne]; ring
      rw [hhead, ih bs (fun c hc => hb c (List.mem_cons_of_mem b hc))
        (by simpa using hlen)]

lemma normalize_denormalize (y : List ℚ) (bounds : List (ℚ × ℚ))
    (hb : ∀ b ∈ bounds, b.1 < b.2) (hlen : y.length = bounds.length) :
    normalize (denormalize y bounds) bounds = y := by
  induction y generalizing bounds with
  | nil =>
    cases bounds with
    | nil => rfl
    | cons b bs => simp at hlen
  | cons a t ih =>
    cases bounds with
    | nil => simp at hlen
    | cons b bs =>
      have hb1 : b.1 < b.2 := hb b (List.mem_cons_self b bs)
      have hne : b.2 - b.1 ≠ 0 := sub_ne_zero.mpr (ne_of_gt hb1)
      rw [denormalize_cons, normalize_cons]
      have hhead : (b.1 + a * (b.2 - b.1) - b.1) / (b.2 - b.1) = a := by
        rw [add_sub_cancel_left, mul_div_cancel_right₀ _ hne]
      rw [hhead, ih bs (fun c hc => hb c (List.mem_cons_of_mem b hc))
        (by simpa using hlen)]

end MapperLemmas

/-- C4. For every bounds list with `low < high` in each entry and vectors of
matching length, `normalize` and `denormalize` are mutually inverse:
`denormalize(normalize(x, bounds), bounds) = x` for every physical vector `x`,
and `normalize(denormalize(y, bounds), bounds) = y` for every normalized
vector `y ∈ [0,1]^n` — exactly, over the rationals. -/
theorem claim4_mapper_round_trip (bounds : List (ℚ × ℚ)) (x y : List ℚ)
    (hb : ∀ b ∈ bounds, b.1 < b.2)
    (hx : x.length = bounds.length) (hy : y.length = bounds.length)
    (hy01 : ∀ yi ∈ y, 0 ≤ yi ∧ yi ≤ 1) :
    denormalize (normalize x bounds) bounds = x ∧
      normalize (denormalize y bounds) bounds = y :=
  ⟨denormalize_normalize x bounds hb hx, normalize_denormalize y bounds hb hy⟩

/-- Witness for C4 at the concrete bounds `[(0, 2), (1, 3)]`,
physical vector `[1, 2]` and normalized vector `[1/2, 1/4]`. -/
theorem claim4_witness :
    (∀ b ∈ [((0 : ℚ), (2 : ℚ)), (1, 3)], b.1 < b.2) ∧
      ([(1 : ℚ), 2].length = [((0 : ℚ), (2 : ℚ)), (1, 3)].length) ∧
      ([(1 : ℚ)/2, 1/4].length = [((0 : ℚ), (2 : ℚ)), (1, 3)].length) ∧
      (∀ yi ∈ [(1 : ℚ)/2, 1/4], 0 ≤ yi ∧ yi ≤ 1) ∧
      (denormalize (normalize [1, 2] [(0, 2), (1, 3)]) [(0, 2), (1, 3)] = [1, 2] ∧
        normalize (denormalize [1/2, 1/4] [(0, 2), (1, 3)]) [(0, 2), (1, 3)] = [1/2, 1/4]) :=
  ⟨by norm_num [List.forall_mem_cons], rfl, rfl,
    by norm_num [List.forall_mem_cons],
    claim4_mapper_round_trip [(0, 2), (1, 3)] [1, 2] [1/2, 1/4]
      (by norm_num [List.forall_mem_cons]) rfl rfl
      (by norm_num [List.forall_mem_cons])⟩

/-- C10. When the input vector and the bounds list have different lengths,
`normalize` and `denormalize` raise no error (they are total) and return a
list of length `min (length input) (length bounds)`: the excess components of
the longer argument are silently dropped by `zip`. -/
theorem claim10_zip_truncation (x : List ℚ) (bounds : List (ℚ × ℚ))
    (hne : x.length ≠ bounds.length) :
    (normalize x bounds).length = min x.length bounds.length ∧
      (denormalize x bounds).length = min x.length bounds.length := by
  constructor <;> simp [normalize, denormalize]

/-- Witness for C10: a 3-component vector against a 1-entry bounds list
yields 1-component outputs. -/
theorem claim10_witness :
    ([(1 : ℚ), 2, 3].length ≠ [((0 : ℚ), (1 : ℚ))].length) ∧
      ((normalize [1, 2, 3] [(0, 1)]).length = min 3 1 ∧
        (denormalize [1, 2, 3] [(0, 1)]).length = min 3 1) :=
  ⟨by decide, claim10_zip_truncation [1, 2, 3] [(0, 1)] (by decide)⟩

/-- C9. The scoring function is strictly monotonic in the stated
directions: holding offset and power fixed, increasing depth strictly
increases the score; holding depth and power fixed, decreasing the (positive)
offset strictly increases the score. -/
theorem claim9_objective_monotone :
    (∀ d0 d1 o pw : ℚ, 0 < d0 → 0 < d1 → 0 < o → 0 < pw → d0 < d1 →
      objective d0 o pw < objective d1 o pw) ∧
    (∀ d o0 o1 pw : ℚ, 0 < d → 0 < pw → 0 < o1 → o1 < o0 →
      objective d o0 pw < objective d o1 pw) := by
  constructor
  · intro d0 d1 o pw h0 h1 ho hp hlt
    unfold objective weights_depth_eV weights_offset_mm weights_P_est_mW
      targets_depth_eV targets_offset_mm targets_P_est_mW
    simp only
    gcongr
  · intro d o0 o1 pw hd hp ho1 hlt
    unfold objective weights_depth_eV weights_offset_mm weights_P_est_mW
      targets_depth_eV targets_offset_mm targets_P_est_mW
    simp only
    gcongr <;> linarith

/-- Witness for C9 at depths 3 < 4 (offset 1, power 1) and offsets 2 > 1
(depth 1, power 1). -/
theorem claim9_witness :
    ((0 : ℚ) < 3 ∧ (0 : ℚ) < 4 ∧ (0 : ℚ) < 1 ∧ (3 : ℚ) < 4 ∧
      objective 3 1 1 < objective 4 1 1) ∧
    ((0 : ℚ) < 1 ∧ (1 : ℚ) < 2 ∧
      objective 1 2 1 < objective 1 1 1) :=
  ⟨⟨by norm_num, by norm_num, by norm_num, by norm_num,
    claim9_objective_monotone.1 3 4 1 1 (by norm_num) (by norm_num) (by norm_num)
      (by norm_num) (by norm_num)⟩,
   ⟨by norm_num, by norm_num,
    claim9_objective_monotone.2 1 2 1 1 (by norm_num) (by norm_num) (by norm_num)
      (by norm_num)⟩⟩

/-- C8. The scoring function returns exactly
`w_depth * (depth / (t_depth + 1e-9)) + w_offset * ((t_offset + 1e-9) / (offset + 1e-9))
 + w_power * ((t_power + 1e-9) / (power + 1e-9))`
with the static target and weight tables fixed at module load
(here the tables of `Hardhaq_Optimization_Easy.py`: targets 5, 0.001, 1000 and
weights 1, 10, 0.8).  The variant of this function in `Comsol_Optimize.py`
cannot return at all: its line 80 reads `ret+urn score`, a syntax error. -/
theorem claim8_objective_formula (d o pw : ℚ)
    (ho : o + 1/1000000000 ≠ 0) (hp : pw + 1/1000000000 ≠ 0) :
    objective d o pw =
      1 * (d / (5 + 1/1000000000)) +
      10 * ((1/1000 + 1/1000000000) / (o + 1/1000000000)) +
      (4/5) * ((1000 + 1/1000000000) / (pw + 1/1000000000)) := rfl

/-- Witness for C8 at the target point (5, 0.001, 1000). -/
theorem claim8_witness :
    ((1 : ℚ)/1000 + 1/1000000000 ≠ 0) ∧ ((1000 : ℚ) + 1/1000000000 ≠ 0) ∧
      objective 5 (1/1000) 1000 =
        1 * ((5 : ℚ) / (5 + 1/1000000000)) +
        10 * ((1/1000 + 1/1000000000) / (1/1000 + 1/1000000000)) +
        (4/5) * ((1000 + 1/1000000000) / (1000 + 1/1000000000)) :=
  ⟨by norm_num, by norm_num,
    claim8_objective_formula 5 (1/1000) 1000 (by norm_num) (by norm_num)⟩

/-- One row of the CSV log, as written by `writer.writerow` in `run_trial`.
The ten physical parameter columns are kept as the opaque list `params`
(they are passed through unchanged); the metric columns are the `try_eval`
results (Python `None` is `none`, written to the CSV as an empty field), and
`score` is the final score. -/
structure TrialRow where
  params : List ℚ
  depth_eV : Option ℚ
  offset_mm : Option ℚ
  P_est_mW : Option ℚ
  score : ℚ
deriving DecidableEq

namespace Easy

/-- The score computation of `run_trial` in `Hardhaq_Optimization_Easy.py`
(lines 130-167), factored out of the function.  Inputs: whether
`model.solve()` returned normally (line 134-138: on exception the score is
set to `-1e6`), and the three `try_eval` results (lines 142-144).
The cascade mirrors the source exactly: lines 148-155 (missing-metric check,
skipped when the solve already failed), then the three sequential guard
`if`-statements of lines 159-167 (`offset_mm is None or offset_mm > 19.13`,
`depth_eV is None or depth_eV < 0.00001`, `P_est_mW is None`), each
overriding the score with `-1e6`. -/
def finalScore (solveOk : Bool) (depth_eV offset_mm P_est_mW : Option ℚ) : ℚ :=
  let score1 : ℚ := if solveOk then 0 else -1000000
  let score2 : ℚ :=
    if score1 = -1000000 then score1
    else
      match depth_eV, offset_mm, P_est_mW with
      | some dv, some ov, some pv => objective dv ov pv
      | _, _, _ => -1000000
  let score3 : ℚ :=
    match offset_mm with
    | none => -1000000
    | some ov => if 1913/100 < ov then -1000000 else score2
  let score4 : ℚ :=
    match depth_eV with
    | none => -1000000
    | some dv => if dv < 1/100000 then -1000000 else score3
  match P_est_mW with
  | none => -1000000
  | some _ => score4

/-- Embeds `run_trial` of `Hardhaq_Optimization_Easy.py` (lines 115-188), with the
engine and CSV effects abstracted: the parameter-injection calls only feed
the row, the solve outcome and `try_eval` results are inputs, and the result
is the returned value `-score` (line 188) together with the list of rows
appended to the CSV (exactly the one row of lines 170-177). -/
def run_trial (params : List ℚ) (solveOk : Bool)
    (depth_eV offset_mm P_est_mW : Option ℚ) : ℚ × List TrialRow :=
  let score := finalScore solveOk depth_eV offset_mm P_est_mW
  (-score, [⟨params, depth_eV, offset_mm, P_est_mW, score⟩])

end Easy

namespace Copy

/-- Embeds `run_trial` of `Comsol_Optimize copy.py` (lines 102-165), same
abstraction as `Easy.run_trial`.  This variant has no `None` guards: when the
missing-metric branch is NOT taken (solve succeeded), `objective` is called
directly on the raw `try_eval` results (line 137), and the sanity guards
compare the raw values (`offset_mm > 15`, `depth_eV < 0.0001`,
`P_est_mW < 10`, lines 140-148).  In Python, arithmetic or an order
comparison on `None` raises `TypeError`, which nothing in `run_trial`
catches; an uncaught exception (no return value, no row written) is
modelled as `none`. -/
def run_trial (params : List ℚ) (solveOk : Bool)
    (depth_eV offset_mm P_est_mW : Option ℚ) : Option (ℚ × List TrialRow) := do
  let score1 : ℚ := if solveOk then 0 else -1000000
  let score2 : ℚ ←
    if score1 = -1000000 then some score1
    else
      match depth_eV, offset_mm, P_est_mW with
      | some dv, some ov, some pv => some (objective dv ov pv)
      | _, _, _ => none
  let score3 : ℚ ←
    match offset_mm with
    | none => none
    | some ov => some (if 15 < ov then -1000000 else score2)
  let score4 : ℚ ←
    match depth_eV with
    | none => none
    | some dv => some (if dv < 1/10000 then -1000000 else score3)
  let score5 : ℚ ←
    match P_est_mW with
    | none => none
    | some pv => some (if pv < 10 then -1000000 else score4)
  some (-score5, [⟨params, depth_eV, offset_mm, P_est_mW, score5⟩])

end Copy

/-- C2, refuted on the variant in `Comsol_Optimize copy.py`.  There, with a successful
solve and `depth_eV` extracted as `None` (offset 1, power 100 present),
`run_trial` does not produce the penalty score at all: `objective(None, ...)`
raises `TypeError` (modelled `none`), so no score is returned and no row is
written. -/
theorem claim2_counterexample :
    Copy.run_trial [] true none (some 1) (some 100) = none := by decide

/-- C2 (amended).  In `Hardhaq_Optimization_Easy.py`: for every trial in
which any metric is extracted as `None`, or the offset exceeds `19.13`, or
the depth is below `0.00001`, the final score of `run_trial` is the penalty
sentinel `-1e6` — regardless of the other metrics (in particular
`depth_eV = None` alone forces it) — the logged row carries that score, and
the evaluator returns `1e6`. -/
theorem claim2_penalty_override (params : List ℚ) (solveOk : Bool)
    (depth_eV offset_mm P_est_mW : Option ℚ)
    (h : depth_eV = none ∨ offset_mm = none ∨ P_est_mW = none ∨
      (∃ ov, offset_mm = some ov ∧ 1913/100 < ov) ∨
      (∃ dv, depth_eV = some dv ∧ dv < 1/100000)) :
    Easy.run_trial params solveOk depth_eV offset_mm P_est_mW =
      (1000000, [⟨params, depth_eV, offset_mm, P_est_mW, -1000000⟩]) := by
  have hs : Easy.finalScore solveOk depth_eV offset_mm P_est_mW = -1000000 := by
    cases solveOk with
    | false =>
      cases depth_eV <;> cases offset_mm <;> cases P_est_mW <;>
        simp [Easy.finalScore] <;> split_ifs <;> rfl
    | true =>
      rcases h with h | h | h | ⟨ov, ho, hov⟩ | ⟨dv, hd, hdv⟩
      · subst h
        cases offset_mm <;> cases P_est_mW <;>
          simp [Easy.finalScore] <;> (try split_ifs) <;> intros <;> first | rfl | linarith
      · subst h
        cases depth_eV <;> cases P_est_mW <;>
          simp [Easy.finalScore] <;> (try split_ifs) <;> intros <;> first | rfl | linarith
      · subst h
        simp [Easy.finalScore]
      · subst ho
        cases depth_eV <;> cases P_est_mW <;>
          simp [Easy.finalScore] <;> (try split_ifs) <;> intros <;> first | rfl | linarith
      · subst hd
        cases offset_mm <;> cases P_est_mW <;>
          simp [Easy.finalScore] <;> (try split_ifs) <;> intros <;> first | rfl | linarith
  unfold Easy.run_trial
  rw [hs]
  norm_num

/-- Witness for the amended C2: a successful solve with `depth_eV = None`,
`offset_mm = 1`, `P_est_mW = 100` still yields score `-1e6`, one penalty row,
and return value `1e6`. -/
theorem claim2_witness :
    ((none : Option ℚ) = none ∨ (some (1 : ℚ)) = none ∨ (some (100 : ℚ)) = none ∨
      (∃ ov, (some (1 : ℚ)) = some ov ∧ 1913/100 < ov) ∨
      (∃ dv, (none : Option ℚ) = some dv ∧ dv < 1/100000)) ∧
    Easy.run_trial [] true none (some 1) (some 100) =
      (1000000, [⟨[], none, some 1, some 100, -1000000⟩]) :=
  ⟨Or.inl rfl, claim2_penalty_override [] true none (some 1) (some 100) (Or.inl rfl)⟩

/-- C3, refuted on the variant in `Comsol_Optimize copy.py`.  There, when the solve
raises and the three metrics consequently extract as `None`, `run_trial`
raises `TypeError` at the guard `offset_mm > 15` (comparison with `None`,
line 140) before reaching the CSV write: the exception propagates to the
optimizer loop and no row is appended (modelled `none`). -/
theorem claim3_counterexample :
    Copy.run_trial [] false none none none = none := by decide

/-- C3 (amended).  In `Hardhaq_Optimization_Easy.py`: for every trial in
which the engine solve raises, `run_trial` propagates no exception, the final
score is the penalty sentinel `-1e6` whatever the extracted metrics are (in
the scenario of the claim they are all `None`, logged as empty fields),
exactly one row is appended to the CSV, and the evaluator returns `1e6`. -/
theorem claim3_solve_failure_logged (params : List ℚ)
    (depth_eV offset_mm P_est_mW : Option ℚ) :
    Easy.run_trial params false depth_eV offset_mm P_est_mW =
      (1000000, [⟨params, depth_eV, offset_mm, P_est_mW, -1000000⟩]) := by
  have hs : Easy.finalScore false depth_eV offset_mm P_est_mW = -1000000 := by
    cases depth_eV <;> cases offset_mm <;> cases P_est_mW <;>
      simp [Easy.finalScore] <;> split_ifs <;> rfl
  unfold Easy.run_trial
  rw [hs]
  norm_num

namespace CO

/-- Embeds `SPHERE_SAFETY_FACTOR` of `Comsol_Optimize.py` (line 22): `1.05`. -/
noncomputable def SPHERE_SAFETY_FACTOR : ℝ := 21/20

/-- Embeds `MIN_SPHERE_MULT` (line 23): `5.0`. -/
def MIN_SPHERE_MULT : ℝ := 5

/-- Embeds `MAX_SPHERE_MULT` (line 24): `50.0`. -/
def MAX_SPHERE_MULT : ℝ := 50

/-- The seven-component parameter vector of `Comsol_Optimize.py`, in the
order documented at line 84 (`V_rf, V_dc, V_endcap, rod_spacing, rod_radius,
rod_length, endcap_offset`); the list indices 3-6 used by
`enforce_inscribed_constraint` become the named geometry fields. -/
structure Params where
  V_rf : ℝ
  V_dc : ℝ
  V_endcap : ℝ
  rod_spacing : ℝ
  rod_radius : ℝ
  rod_length : ℝ
  endcap_offset : ℝ

/-- Lines 116-124 and 131 of `Comsol_Optimize.py`: the minimal enclosing
sphere radius of the derived cylinder, `sqrt(half_height² + struct_radius²)`.
The source computes this expression twice (as `R_min` at line 124 and as
`current` at line 131); both are this definition.  `endcap_thick` and
`endcap_rad` are the values read from the COMSOL model (lines 98-114);
both default to `0.0` when the model provides none. -/
noncomputable def currentRadius (p : Params) (endcap_thick endcap_rad : ℝ) : ℝ :=
  let cyl_radius := p.rod_spacing / 2 + p.rod_radius
  let struct_radius := max cyl_radius endcap_rad
  let cyl_height := p.rod_length + 2 * (p.endcap_offset + endcap_thick)
  let half_height := cyl_height / 2
  Real.sqrt (half_height * half_height + struct_radius * struct_radius)

/-- Lines 126-128 of `Comsol_Optimize.py`: the clamped, safety-padded target
sphere radius
`R_sphere = max(min_allowed, min(R_min * SPHERE_SAFETY_FACTOR, max_allowed))`
with `min_allowed = MIN_SPHERE_MULT * rod_radius` and
`max_allowed = MAX_SPHERE_MULT * rod_radius`. -/
noncomputable def sphereRadius (p : Params) (endcap_thick endcap_rad : ℝ) : ℝ :=
  let min_allowed := MIN_SPHERE_MULT * p.rod_radius
  let max_allowed := MAX_SPHERE_MULT * p.rod_radius
  max min_allowed
    (min (currentRadius p endcap_thick endcap_rad * SPHERE_SAFETY_FACTOR) max_allowed)

/-- Line 136 of `Comsol_Optimize.py`: `scale = min(1.0, R_sphere / current)`. -/
noncomputable def scaleFactor (p : Params) (endcap_thick endcap_rad : ℝ) : ℝ :=
  min 1 (sphereRadius p endcap_thick endcap_rad / currentRadius p endcap_thick endcap_rad)

/-- Embeds `enforce_inscribed_constraint(p, model_obj)` of `Comsol_Optimize.py`
(lines 85-145).  If the current enclosing-sphere requirement already fits
(`current <= R_sphere`, line 132) the vector is returned unchanged with flag
`False`; otherwise `rod_spacing`, `rod_length` and `endcap_offset` are
multiplied by `scale` (lines 136-145) and the flag is `True`.  When the
correction branch is reached with `current == 0.0` the Python expression
`R_sphere / current` raises `ZeroDivisionError`; that exceptional outcome is
modelled as `none`. -/
noncomputable def enforce_inscribed_constraint (p : Params) (endcap_thick endcap_rad : ℝ) :
    Option (Params × Bool) :=
  if currentRadius p endcap_thick endcap_rad ≤ sphereRadius p endcap_thick endcap_rad then
    some (p, false)
  else if currentRadius p endcap_thick endcap_rad = 0 then
    none
  else
    some ({ p with
      rod_spacing := p.rod_spacing * scaleFactor p endcap_thick endcap_rad,
      rod_length := p.rod_length * scaleFactor p endcap_thick endcap_rad,
      endcap_offset := p.endcap_offset * scaleFactor p endcap_thick endcap_rad }, true)

/-! Concrete parameter vectors used in counterexamples and witnesses. -/

/-- The all-zero parameter vector. -/
noncomputable def paramsZero : Params := ⟨0, 0, 0, 0, 0, 0, 0⟩

/-- Counterexample input for C1: spacing 5.96, radius 0.02, length 8,
offset 0 (half height 4, structure radius 3, current 5, sphere radius 1). -/
noncomputable def pex : Params := ⟨0, 0, 0, 149/25, 1/50, 8, 0⟩

/-- The output of the corrector on `pex` (everything length-like scaled
by 1/5). -/
noncomputable def p2ex : Params := ⟨0, 0, 0, 149/125, 1/50, 8/5, 0⟩

/-- Counterexample input for C5: like `pex` but length 8.2 and a negative
endcap offset −0.1 (so the same current 5 and sphere radius 1). -/
noncomputable def pex5 : Params := ⟨0, 0, 0, 149/25, 1/50, 41/5, -1/10⟩

/-- The output of the corrector on `pex5`. -/
noncomputable def p5out : Params := ⟨0, 0, 0, 149/125, 1/50, 41/25, -1/50⟩

/-- Counterexample input for C6: rod radius 0 (degenerate sphere bound),
spacing 6, length 8 (current 5, sphere radius 0). -/
noncomputable def pex6 : Params := ⟨0, 0, 0, 6, 0, 8, 0⟩

section EvaluationLemmas

lemma currentRadius_def (p : Params) (et er : ℝ) :
    currentRadius p et er =
      Real.sqrt (((p.rod_length + 2 * (p.endcap_offset + et)) / 2) *
          ((p.rod_length + 2 * (p.endcap_offset + et)) / 2) +
        (max (p.rod_spacing / 2 + p.rod_radius) er) *
          (max (p.rod_spacing / 2 + p.rod_radius) er)) := rfl

lemma current_p0 : currentRadius paramsZero 0 0 = 0 := by
  rw [currentRadius_def]
  norm_num [paramsZero, max_def, Real.sqrt_zero]

lemma sphere_p0 : sphereRadius paramsZero 0 0 = 0 := by
  unfold sphereRadius MIN_SPHERE_MULT MAX_SPHERE_MULT SPHERE_SAFETY_FACTOR
  rw [current_p0]
  norm_num [paramsZero, min_def, max_def]

lemma current_pex : currentRadius pex 0 0 = 5 := by
  have h : currentRadius pex 0 0 = Real.sqrt 25 := by
    rw [currentRadius_def]
    norm_num [pex, max_def]
  rw [h, show (25 : ℝ) = 5 ^ 2 by norm_num, Real.sqrt_sq (by norm_num : (0:ℝ) ≤ 5)]

lemma sphere_pex : sphereRadius pex 0 0 = 1 := by
  unfold sphereRadius MIN_SPHERE_MULT MAX_SPHERE_MULT SPHERE_SAFETY_FACTOR
  rw [current_pex]
  norm_num [pex, min_def, max_def]

lemma current_pex5 : currentRadius pex5 0 0 = 5 := by
  have h : currentRadius pex5 0 0 = Real.sqrt 25 := by
    rw [currentRadius_def]
    norm_num [pex5, max_def]
  rw [h, show (25 : ℝ) = 5 ^ 2 by norm_num, Real.sqrt_sq (by norm_num : (0:ℝ) ≤ 5)]

lemma sphere_pex5 : sphereRadius pex5 0 0 = 1 := by
  unfold sphereRadius MIN_SPHERE_MULT MAX_SPHERE_MULT SPHERE_SAFETY_FACTOR
  rw [current_pex5]
  norm_num [pex5, min_def, max_def]

lemma current_pex6 : currentRadius pex6 0 0 = 5 := by
  have h : currentRadius pex6 0 0 = Real.sqrt 25 := by
    rw [currentRadius_def]
    norm_num [pex6, max_def]
  rw [h, show (25 : ℝ) = 5 ^ 2 by norm_num, Real.sqrt_sq (by norm_num : (0:ℝ) ≤ 5)]

lemma sphere_pex6 : sphereRadius pex6 0 0 = 0 := by
  unfold sphereRadius MIN_SPHERE_MULT MAX_SPHERE_MULT SPHERE_SAFETY_FACTOR
  rw [current_pex6]
  norm_num [pex6, min_def, max_def]

lemma current_p2ex : currentRadius p2ex 0 0 = Real.sqrt (15929/15625) := by
  rw [currentRadius_def]
  norm_num [p2ex, max_def]

lemma one_lt_current_p2ex : 1 < currentRadius p2ex 0 0 := by
  rw [current_p2ex]
  refine (Real.lt_sqrt (by norm_num)).mpr ?_
  norm_num

lemma sphere_p2ex : sphereRadius p2ex 0 0 = 1 := by
  have hc := one_lt_current_p2ex
  unfold sphereRadius MIN_SPHERE_MULT MAX_SPHERE_MULT SPHERE_SAFETY_FACTOR
  have h1 : (1 : ℝ) ≤ currentRadius p2ex 0 0 * (21/20) := by nlinarith
  have h2 : p2ex.rod_radius = 1/50 := by norm_num [p2ex]
  rw [h2]
  norm_num
  rw [min_eq_right h1]
  norm_num [max_def]

lemma current_le_sphere_p0 :
    currentRadius paramsZero 0 0 ≤ sphereRadius paramsZero 0 0 := by
  rw [current_p0, sphere_p0]

lemma enforce_p0 :
    enforce_inscribed_constraint paramsZero 0 0 = some (paramsZero, false) := by
  unfold enforce_inscribed_constraint
  rw [if_pos current_le_sphere_p0]

end EvaluationLemmas

/-- C7. For every input whose current enclosing-sphere requirement is
already at most `R_sphere`, the corrector returns the input unchanged
together with the flag `False`. -/
theorem claim7_already_fits (p : Params) (et er : ℝ)
    (h : currentRadius p et er ≤ sphereRadius p et er) :
    enforce_inscribed_constraint p et er = some (p, false) := by
  unfold enforce_inscribed_constraint
  rw [if_pos h]

/-- Witness for C7 at the all-zero vector (current 0 ≤ sphere radius 0). -/
theorem claim7_witness :
    currentRadius paramsZero 0 0 ≤ sphereRadius paramsZero 0 0 ∧
      enforce_inscribed_constraint paramsZero 0 0 = some (paramsZero, false) :=
  ⟨current_le_sphere_p0, claim7_already_fits paramsZero 0 0 current_le_sphere_p0⟩

/-- C1, refuted.  The corrector is not idempotent: on `pex` it fires and
returns `p2ex`, but `p2ex` still violates the sphere bound (rod radius and
endcap thickness are not scaled, so the geometry shrinks less than
proportionally), hence a second application modifies the vector again. -/
theorem claim1_counterexample :
    enforce_inscribed_constraint pex 0 0 = some (p2ex, true) ∧
      (enforce_inscribed_constraint p2ex 0 0).map Prod.fst ≠ some p2ex := by
  constructor
  · have hnle : ¬(currentRadius pex 0 0 ≤ sphereRadius pex 0 0) := by
      rw [current_pex, sphere_pex]; norm_num
    have hne0 : ¬(currentRadius pex 0 0 = 0) := by
      rw [current_pex]; norm_num
    have hscale : scaleFactor pex 0 0 = 1/5 := by
      unfold scaleFactor
      rw [current_pex, sphere_pex]
      norm_num [min_def]
    unfold enforce_inscribed_constraint
    rw [if_neg hnle, if_neg hne0, hscale]
    simp only [pex, p2ex, Option.some.injEq, Prod.mk.injEq]
    norm_num
  · have h1 := one_lt_current_p2ex
    have hnle : ¬(currentRadius p2ex 0 0 ≤ sphereRadius p2ex 0 0) := by
      rw [sphere_p2ex]; linarith
    have hne0 : ¬(currentRadius p2ex 0 0 = 0) := by
      intro h0; rw [h0] at h1; linarith
    have hscale : scaleFactor p2ex 0 0 = 1 / currentRadius p2ex 0 0 := by
      unfold scaleFactor
      rw [sphere_p2ex]
      exact min_eq_right ((div_le_one (by linarith)).mpr (le_of_lt h1))
    intro hcontra
    unfold enforce_inscribed_constraint at hcontra
    rw [if_neg hnle, if_neg hne0] at hcontra
    simp only [Option.map_some', Option.some.injEq] at hcontra
    have hlt : p2ex.rod_spacing * scaleFactor p2ex 0 0 < p2ex.rod_spacing := by
      rw [hscale]
      have hpos : (0 : ℝ) < p2ex.rod_spacing := by norm_num [p2ex]
      have hinv : 1 / currentRadius p2ex 0 0 < 1 := by
        rw [div_lt_one (by linarith)]
        exact h1
      nlinarith
    have hsp := congrArg Params.rod_spacing hcontra
    exact absurd hsp (ne_of_lt hlt)

/-- C1 (amended).  The corrector is idempotent on every input it does not
modify: whenever it returns `(q, False)`, the output equals the input and a
second application returns the same unmodified result.  (When it does fire,
re-applying it can modify the vector again, as `claim1_counterexample`
shows.) -/
theorem claim1_idempotent_when_unmodified (p : Params) (et er : ℝ) (q : Params)
    (h : enforce_inscribed_constraint p et er = some (q, false)) :
    q = p ∧ enforce_inscribed_constraint q et er = some (q, false) := by
  unfold enforce_inscribed_constraint at h
  split_ifs at h with h1 h2
  · simp only [Option.some.injEq, Prod.mk.injEq] at h
    obtain ⟨rfl, -⟩ := h
    exact ⟨rfl, by unfold enforce_inscribed_constraint; rw [if_pos h1]⟩
  · simp only [Option.some.injEq, Prod.mk.injEq] at h
    exact absurd h.2 (by simp)

/-- Witness for the amended C1 at the all-zero vector. -/
theorem claim1_witness :
    enforce_inscribed_constraint paramsZero 0 0 = some (paramsZero, false) ∧
      (paramsZero = paramsZero ∧
        enforce_inscribed_constraint paramsZero 0 0 = some (paramsZero, false)) :=
  ⟨enforce_p0, claim1_idempotent_when_unmodified paramsZero 0 0 paramsZero enforce_p0⟩

/-- C5, refuted in one conjunct.  "None of spacing/length/offset ever
increases" fails for a negative component: on `pex5` (endcap offset −0.1) the
corrector fires with scale 1/5 and the endcap offset increases from −0.1
to −0.02. -/
theorem claim5_counterexample :
    enforce_inscribed_constraint pex5 0 0 = some (p5out, true) ∧
      pex5.endcap_offset < p5out.endcap_offset := by
  constructor
  · have hnle : ¬(currentRadius pex5 0 0 ≤ sphereRadius pex5 0 0) := by
      rw [current_pex5, sphere_pex5]; norm_num
    have hne0 : ¬(currentRadius pex5 0 0 = 0) := by
      rw [current_pex5]; norm_num
    have hscale : scaleFactor pex5 0 0 = 1/5 := by
      unfold scaleFactor
      rw [current_pex5, sphere_pex5]
      norm_num [min_def]
    unfold enforce_inscribed_constraint
    rw [if_neg hnle, if_neg hne0, hscale]
    simp only [pex5, p5out, Option.some.injEq, Prod.mk.injEq]
    norm_num
  · norm_num [pex5, p5out]

/-- C5 (amended).  The corrector modifies at most `rod_spacing`,
`rod_length` and `endcap_offset`, each multiplied by the same factor
`scale = min(1, R_sphere/current) ≤ 1`; `rod_radius`, `V_rf`, `V_dc` and
`V_endcap` are exactly unchanged; it modifies anything only when the
unmodified geometry exceeds the sphere bound; and no *nonnegative* component
ever increases (a negative component is scaled toward zero, hence
increases). -/
theorem claim5_frame (p : Params) (et er : ℝ) (q : Params) (b : Bool)
    (h : enforce_inscribed_constraint p et er = some (q, b)) :
    q.rod_radius = p.rod_radius ∧ q.V_rf = p.V_rf ∧ q.V_dc = p.V_dc ∧
      q.V_endcap = p.V_endcap ∧
      (b = false → q = p) ∧
      (b = true →
        sphereRadius p et er < currentRadius p et er ∧
        scaleFactor p et er ≤ 1 ∧
        q.rod_spacing = p.rod_spacing * scaleFactor p et er ∧
        q.rod_length = p.rod_length * scaleFactor p et er ∧
        q.endcap_offset = p.endcap_offset * scaleFactor p et er ∧
        (0 ≤ p.rod_spacing → q.rod_spacing ≤ p.rod_spacing) ∧
        (0 ≤ p.rod_length → q.rod_length ≤ p.rod_length) ∧
        (0 ≤ p.endcap_offset → q.endcap_offset ≤ p.endcap_offset)) := by
  unfold enforce_inscribed_constraint at h
  split_ifs at h with h1 h2
  · simp only [Option.some.injEq, Prod.mk.injEq] at h
    obtain ⟨rfl, rfl⟩ := h
    refine ⟨rfl, rfl, rfl, rfl, fun _ => rfl, ?_⟩
    intro hb
    exact absurd hb (by decide)
  · simp only [Option.some.injEq, Prod.mk.injEq] at h
    obtain ⟨rfl, rfl⟩ := h
    have hlt : sphereRadius p et er < currentRadius p et er := lt_of_not_le h1
    have hsle : scaleFactor p et er ≤ 1 := min_le_left _ _
    refine ⟨rfl, rfl, rfl, rfl, ?_, ?_⟩
    · intro hb
      exact absurd hb (by decide)
    · intro _
      exact ⟨hlt, hsle, rfl, rfl, rfl,
        fun hp => mul_le_of_le_one_right hp hsle,
        fun hp => mul_le_of_le_one_right hp hsle,
        fun hp => mul_le_of_le_one_right hp hsle⟩

/-- Witness for the amended C5 at the all-zero vector (unmodified branch). -/
theorem claim5_witness :
    enforce_inscribed_constraint paramsZero 0 0 = some (paramsZero, false) ∧
      (paramsZero.rod_radius = paramsZero.rod_radius ∧
        paramsZero.V_rf = paramsZero.V_rf ∧ paramsZero.V_dc = paramsZero.V_dc ∧
        paramsZero.V_endcap = paramsZero.V_endcap ∧
        (false = false → paramsZero = paramsZero) ∧
        (false = true →
          sphereRadius paramsZero 0 0 < currentRadius paramsZero 0 0 ∧
          scaleFactor paramsZero 0 0 ≤ 1 ∧
          paramsZero.rod_spacing = paramsZero.rod_spacing * scaleFactor paramsZero 0 0 ∧
          paramsZero.rod_length = paramsZero.rod_length * scaleFactor paramsZero 0 0 ∧
          paramsZero.endcap_offset = paramsZero.endcap_offset * scaleFactor paramsZero 0 0 ∧
          (0 ≤ paramsZero.rod_spacing → paramsZero.rod_spacing ≤ paramsZero.rod_spacing) ∧
          (0 ≤ paramsZero.rod_length → paramsZero.rod_length ≤ paramsZero.rod_length) ∧
          (0 ≤ paramsZero.endcap_offset →
            paramsZero.endcap_offset ≤ paramsZero.endcap_offset))) :=
  ⟨enforce_p0, claim5_frame paramsZero 0 0 paramsZero false enforce_p0⟩

/-- C6, refuted.  With `rod_radius = 0` (so `R_sphere = 0`) and a
non-degenerate geometry (`current = 5`), the corrector does NOT leave the
vector unchanged: the scale `min(1, 0/5) = 0` zeroes spacing, length and
offset. -/
theorem claim6_counterexample :
    sphereRadius pex6 0 0 ≤ 0 ∧
      enforce_inscribed_constraint pex6 0 0 = some (paramsZero, true) ∧
      paramsZero ≠ pex6 := by
  refine ⟨le_of_eq sphere_pex6, ?_, ?_⟩
  · have hnle : ¬(currentRadius pex6 0 0 ≤ sphereRadius pex6 0 0) := by
      rw [current_pex6, sphere_pex6]; norm_num
    have hne0 : ¬(currentRadius pex6 0 0 = 0) := by
      rw [current_pex6]; norm_num
    have hscale : scaleFactor pex6 0 0 = 0 := by
      unfold scaleFactor
      rw [current_pex6, sphere_pex6]
      norm_num [min_def]
    unfold enforce_inscribed_constraint
    rw [if_neg hnle, if_neg hne0, hscale]
    simp only [pex6, paramsZero, Option.some.injEq, Prod.mk.injEq]
    norm_num
  · intro h
    have := congrArg Params.rod_spacing h
    simp only [paramsZero, pex6] at this
    norm_num at this

/-- C6 (amended).  When the target sphere radius is ≤ 0, the corrector
leaves the vector unchanged only in the fully degenerate case
`current = 0 = R_sphere`; when `current > 0` it fires and multiplies
spacing/length/offset by `scale = min(1, R_sphere/current) ≤ 0`; and when
`current = 0 > R_sphere` the Python code raises `ZeroDivisionError`
(modelled `none`). -/
theorem claim6_degenerate_radius (p : Params) (et er : ℝ)
    (hR : sphereRadius p et er ≤ 0) :
    (currentRadius p et er = 0 → sphereRadius p et er = 0 →
      enforce_inscribed_constraint p et er = some (p, false)) ∧
    (currentRadius p et er = 0 → sphereRadius p et er < 0 →
      enforce_inscribed_constraint p et er = none) ∧
    (0 < currentRadius p et er →
      enforce_inscribed_constraint p et er =
        some ({ p with
          rod_spacing := p.rod_spacing * scaleFactor p et er,
          rod_length := p.rod_length * scaleFactor p et er,
          endcap_offset := p.endcap_offset * scaleFactor p et er }, true) ∧
      scaleFactor p et er ≤ 0) := by
  refine ⟨?_, ?_, ?_⟩
  · intro hc hs
    unfold enforce_inscribed_constraint
    rw [if_pos (by rw [hc, hs])]
  · intro hc hs
    unfold enforce_inscribed_constraint
    rw [if_neg (by rw [hc]; linarith), if_pos hc]
  · intro hc
    have hnle : ¬(currentRadius p et er ≤ sphereRadius p et er) :=
      not_le.mpr (lt_of_le_of_lt hR hc)
    refine ⟨?_, ?_⟩
    · unfold enforce_inscribed_constraint
      rw [if_neg hnle, if_neg (Ne.symm (ne_of_lt hc))]
    · have hdiv : sphereRadius p et er / currentRadius p et er ≤ 0 :=
        div_nonpos_of_nonpos_of_nonneg hR (le_of_lt hc)
      exact le_trans (min_le_right _ _) hdiv

/-- Witness for the amended C6 at `pex6` (sphere radius 0, current 5). -/
theorem claim6_witness :
    sphereRadius pex6 0 0 ≤ 0 ∧ 0 < currentRadius pex6 0 0 ∧
      (enforce_inscribed_constraint pex6 0 0 =
        some ({ pex6 with
          rod_spacing := pex6.rod_spacing * scaleFactor pex6 0 0,
          rod_length := pex6.rod_length * scaleFactor pex6 0 0,
          endcap_offset := pex6.endcap_offset * scaleFactor pex6 0 0 }, true) ∧
        scaleFactor pex6 0 0 ≤ 0) :=
  ⟨le_of_eq sphere_pex6, by rw [current_pex6]; norm_num,
    (claim6_degenerate_radius pex6 0 0 (le_of_eq sphere_pex6)).2.2
      (by rw [current_pex6]; norm_num)⟩

end CO

end Hardhaq
